import Mathlib

/-!
Verification of the tool-execution middleware pipeline and the context
compaction tools of the terminal-agent example.

The Python sources `middleware.py` and `compact_tools.py` are shallowly
embedded below: Python objects with mutable fields become Lean structures
with explicit state passing, a middleware that may raise becomes a function
into `Except`, and dictionaries of heterogeneous values become association
lists over a small `JsonVal` type.  The agent loop itself (`agent.py`) is
not part of the sources; where a definition depends on it, the definition
is modelled from the specification and marked as such.
-/

set_option maxHeartbeats 1000000
set_option maxRecDepth 8192

/-- A transcript message: a dict with a "role" and a "content" key. -/
structure Msg where
  role : String
  content : String
deriving DecidableEq, Repr

/-- A Python value appearing in a `dict[str, Any]` result payload. -/
inductive JsonVal where
  | str (s : String)
  | int (n : Int)
  | bool (b : Bool)
deriving DecidableEq, Repr

/-- `ToolExecutionContext`: immutable record of one completed tool call
(middleware.py lines 18-26). -/
structure ToolExecutionContext where
  tool_name : String
  tool_args : List (String × JsonVal)
  result : List (String × JsonVal)
  error : Bool
  tool_call_id : String
deriving DecidableEq, Repr

/-- `MiddlewareResult`: messages a middleware wants appended to the
conversation (middleware.py lines 29-33). -/
structure MiddlewareResult where
  messages_to_add : List Msg
deriving DecidableEq, Repr

/-- The `Middleware` abstract base class (middleware.py lines 36-67), over an
explicit state type `σ`.  `name` and `enabled` are properties (`enabled` may
be computed from state); `after_tool_execution` may raise, modelled by
`Except`; `reset` is the optional capability probed by
`MiddlewareChain.reset` via `getattr`. -/
structure MiddlewareSpec (σ : Type) where
  name : String
  enabled : σ → Bool
  after_tool_execution : σ → ToolExecutionContext → Except String (MiddlewareResult × σ)
  reset : Option (σ → σ)

/-- A middleware instance: a spec packaged with its current internal state. -/
structure MiddlewareInst where
  σ : Type
  spec : MiddlewareSpec σ
  state : σ

/-- The `name` property of an instance. -/
def MiddlewareInst.name (m : MiddlewareInst) : String :=
  m.spec.name

/-- The `enabled` property of an instance, evaluated at its current state. -/
def MiddlewareInst.enabledNow (m : MiddlewareInst) : Bool :=
  m.spec.enabled m.state

/-- Run `after_tool_execution` on an instance: either the messages it emits
together with the updated instance, or the exception it raised. -/
def MiddlewareInst.runAfter (m : MiddlewareInst) (ctx : ToolExecutionContext) :
    Except String (List Msg × MiddlewareInst) :=
  match m.spec.after_tool_execution m.state ctx with
  | Except.error e => Except.error e
  | Except.ok (res, s) => Except.ok (res.messages_to_add, ⟨m.σ, m.spec, s⟩)

/- ### PlaybookNudgeMiddleware (middleware.py lines 70-144) -/

/-- The mutable attributes of a `PlaybookNudgeMiddleware` object. -/
structure PlaybookNudgeState where
  enabled : Bool
  max_nudges : Int
  target_tools : List String
  nudge_count : Nat
deriving DecidableEq, Repr

namespace PlaybookNudgeMiddleware

/-- `PlaybookNudgeMiddleware.__init__` (middleware.py lines 83-100).
`target_tools or ["run_command"]` replaces both `None` and the empty list
by the default. -/
def init (enabled : Bool) (max_nudges : Int) (target_tools : Option (List String)) :
    PlaybookNudgeState :=
  { enabled := enabled
    max_nudges := max_nudges
    target_tools :=
      match target_tools with
      | none => ["run_command"]
      | some [] => ["run_command"]
      | some ts => ts
    nudge_count := 0 }

/-- The fixed advisory text of the nudge (middleware.py lines 136-140). -/
def nudgeText : String :=
  "Hint: The command was successful. If this command modifies " ++
  "system state, remember to add it to the Ansible playbook " ++
  "using 'add_task'."

/-- The single system-role message a nudge appends. -/
def nudgeMessage : Msg :=
  { role := "system", content := nudgeText }

/-- `PlaybookNudgeMiddleware.reset` (middleware.py lines 110-112). -/
def reset (s : PlaybookNudgeState) : PlaybookNudgeState :=
  { s with nudge_count := 0 }

/-- `PlaybookNudgeMiddleware.after_tool_execution` (middleware.py
lines 114-144): early returns of the empty result, else increment the
counter and emit the nudge. -/
def after_tool_execution (s : PlaybookNudgeState) (ctx : ToolExecutionContext) :
    MiddlewareResult × PlaybookNudgeState :=
  if s.enabled = false then
    ({ messages_to_add := [] }, s)
  else if 0 < s.max_nudges ∧ (s.nudge_count : Int) ≥ s.max_nudges then
    ({ messages_to_add := [] }, s)
  else if (s.target_tools.contains ctx.tool_name) = false then
    ({ messages_to_add := [] }, s)
  else if ctx.error = true then
    ({ messages_to_add := [] }, s)
  else
    ({ messages_to_add := [nudgeMessage] }, { s with nudge_count := s.nudge_count + 1 })

/-- The middleware packaged for the chain: `name` is the constant
"playbook_nudge", `enabled` reads the stored flag, the reaction never
raises, and `reset` is exposed. -/
def spec : MiddlewareSpec PlaybookNudgeState :=
  { name := "playbook_nudge"
    enabled := fun s => s.enabled
    after_tool_execution := fun s ctx => Except.ok (after_tool_execution s ctx)
    reset := some reset }

/-- A chain member holding a `PlaybookNudgeMiddleware` in state `s`. -/
def inst (s : PlaybookNudgeState) : MiddlewareInst :=
  ⟨PlaybookNudgeState, spec, s⟩

end PlaybookNudgeMiddleware

/- ### MiddlewareChain (middleware.py lines 147-225)

A chain is its ordered list of members; each Python method that mutates the
chain or a member becomes a function returning the updated list. -/

namespace MiddlewareChain

/-- `MiddlewareChain.add` (middleware.py lines 164-166): append. -/
def add (mws : List MiddlewareInst) (m : MiddlewareInst) : List MiddlewareInst :=
  mws ++ [m]

/-- `MiddlewareChain.remove` (middleware.py lines 168-182): pop the first
member whose name matches; the Bool is the return value. -/
def remove : List MiddlewareInst → String → Bool × List MiddlewareInst
  | [], _ => (false, [])
  | m :: rest, nm =>
    if m.name = nm then (true, rest)
    else
      let r := remove rest nm
      (r.1, m :: r.2)

/-- `MiddlewareChain.get` (middleware.py lines 184-189): first match or None. -/
def get : List MiddlewareInst → String → Option MiddlewareInst
  | [], _ => none
  | m :: rest, nm => if m.name = nm then some m else get rest nm

/-- `MiddlewareChain.process_tool_execution` (middleware.py lines 191-212):
iterate in order, skip disabled members, run each enabled member and extend
the accumulated messages.  The source has no exception handling, so an
exception from a member propagates: the members already run keep their
updated state, the faulting member and the rest keep their old state, and
the caller receives the exception instead of the messages. -/
def process_tool_execution :
    List MiddlewareInst → ToolExecutionContext → Except String (List Msg) × List MiddlewareInst
  | [], _ => (Except.ok [], [])
  | m :: rest, ctx =>
    if m.enabledNow then
      match m.runAfter ctx with
      | Except.error e => (Except.error e, m :: rest)
      | Except.ok (msgs, m1) =>
        match process_tool_execution rest ctx with
        | (Except.error e, rest1) => (Except.error e, m1 :: rest1)
        | (Except.ok more, rest1) => (Except.ok (msgs ++ more), m1 :: rest1)
    else
      let r := process_tool_execution rest ctx
      (r.1, m :: r.2)

/-- `MiddlewareChain.reset` (middleware.py lines 214-219): call `reset` on
every member that exposes a callable one, leave the others alone. -/
def reset : List MiddlewareInst → List MiddlewareInst
  | [] => []
  | m :: rest =>
    (match m.spec.reset with
     | some f => ⟨m.σ, m.spec, f m.state⟩
     | none => m) :: reset rest

end MiddlewareChain

/- ### Pointwise description of one dispatch step, used to state what the
chain returns when no member faults. -/

/-- The messages one member contributes to a dispatch: none when disabled or
faulting, its `messages_to_add` otherwise. -/
def MiddlewareInst.msgsOf (m : MiddlewareInst) (ctx : ToolExecutionContext) : List Msg :=
  if m.enabledNow then
    match m.runAfter ctx with
    | Except.ok (msgs, _) => msgs
    | Except.error _ => []
  else []

/-- The state a member is left in by a dispatch in which it ran to
completion: unchanged when disabled or faulting, updated otherwise. -/
def MiddlewareInst.stepOf (m : MiddlewareInst) (ctx : ToolExecutionContext) : MiddlewareInst :=
  if m.enabledNow then
    match m.runAfter ctx with
    | Except.ok (_, m1) => m1
    | Except.error _ => m
  else m

/-- A member with `reset` applied when it exposes one, itself otherwise. -/
def MiddlewareInst.resetOne (m : MiddlewareInst) : MiddlewareInst :=
  match m.spec.reset with
  | some f => ⟨m.σ, m.spec, f m.state⟩
  | none => m

/- ### The agent loop, as seen by the compaction tools

`agent.py` is not among the sources; the attributes the tools read from it
are modelled from the spec. -/

/-- Modelled from the spec: the observable state of the `AgentLoop`
(`agent.py` is not under the sources) — the live transcript `messages`,
the token budget `current_tokens`/`max_tokens`, and the compaction state
`auto_compact`, `compact_threshold`, `_compaction_count` (spec §3, §6). -/
structure AgentLoop where
  messages : List Msg
  current_tokens : Nat
  max_tokens : Nat
  auto_compact : Bool
  compact_threshold : ℚ
  compaction_count : Nat

/-- Modelled from the spec: `usage_ratio = current_tokens / max_tokens`
(spec §3, TokenBudget). -/
def AgentLoop.usage_ratio (a : AgentLoop) : ℚ :=
  (a.current_tokens : ℚ) / (a.max_tokens : ℚ)

/-- Modelled from the spec: `get_token_usage() -> (current_tokens,
max_tokens, usage_ratio)` (spec §4.1). -/
def AgentLoop.get_token_usage (a : AgentLoop) : Nat × Nat × ℚ :=
  (a.current_tokens, a.max_tokens, a.usage_ratio)

/-- Modelled from the spec: `should_compact()` is true iff
`auto_compact_enabled` and `usage_ratio >= compact_threshold` (spec §4.1);
a pure query, it takes the state and returns only a Bool. -/
def AgentLoop.should_compact (a : AgentLoop) : Bool :=
  a.auto_compact && decide (a.compact_threshold ≤ a.usage_ratio)

/- ### Compaction tools (compact_tools.py) -/

/-- `ToolExecutionResult` as the compaction tools build it: a success flag,
a dict of data, and an optional error message. -/
structure ToolExecutionResult where
  success : Bool
  data : List (String × JsonVal)
  error_message : Option String
deriving DecidableEq, Repr

/-- Python `f"{q:.1%}"`: the ratio as a percentage with one decimal, e.g.
`0.756 ↦ "75.6%"` (rounding to the nearest tenth of a percent). -/
def formatPercent1 (q : ℚ) : String :=
  let tenths : Int := round (q * 1000)
  toString (tenths / 10) ++ "." ++ toString (tenths % 10).natAbs ++ "%"

/-- Python `f"{q:.0%}"`: the ratio as a whole-number percentage. -/
def formatPercent0 (q : ℚ) : String :=
  toString (round (q * 100) : Int) ++ "%"

/-- The preview of the summary (compact_tools.py line 77): the first 200
characters plus "..." when the summary is longer than 200 characters, the
whole summary otherwise. -/
def summaryPreview (summary : String) : String :=
  if summary.length > 200 then summary.take 200 ++ "..." else summary

/-- `CompactTool.execute` (compact_tools.py lines 55-85).  The agent calls
are passed in as the values they produce at the two observation points:
`usageBefore` is `get_token_usage()` before compaction, `compactRes` is the
outcome of `await agent.compact()` (an exception becomes `Except.error`),
`usageAfter` is `get_token_usage()` after.  Any exception yields the failed
result with a readable description; nothing is re-raised. -/
def CompactTool.execute (usageBefore : Nat × Nat × ℚ) (compactRes : Except String String)
    (usageAfter : Nat × Nat × ℚ) : ToolExecutionResult :=
  match compactRes with
  | Except.error e =>
    { success := false
      data := []
      error_message := some ("Failed to compact conversation: " ++ e) }
  | Except.ok summary =>
    { success := true
      data :=
        [("message", JsonVal.str "Conversation compacted successfully"),
         ("tokens_before", JsonVal.int (usageBefore.1 : Int)),
         ("tokens_after", JsonVal.int (usageAfter.1 : Int)),
         ("tokens_saved", JsonVal.int ((usageBefore.1 : Int) - (usageAfter.1 : Int))),
         ("usage_before", JsonVal.str (formatPercent1 usageBefore.2.2)),
         ("usage_after", JsonVal.str (formatPercent1 usageAfter.2.2)),
         ("context_limit", JsonVal.int (usageBefore.2.1 : Int)),
         ("summary_preview", JsonVal.str (summaryPreview summary))]
      error_message := none }

/-- `ContextStatusTool.execute` (compact_tools.py lines 123-140): read the
agent's token usage, compaction recommendation and counters, and return
them; always a success, and the agent state is only read, never changed
(the function takes `a` and returns only the result). -/
def ContextStatusTool.execute (a : AgentLoop) : ToolExecutionResult :=
  { success := true
    data :=
      [("current_tokens", JsonVal.int (a.current_tokens : Int)),
       ("context_limit", JsonVal.int (a.max_tokens : Int)),
       ("usage_percent", JsonVal.str (formatPercent1 a.usage_ratio)),
       ("messages_count", JsonVal.int (a.messages.length : Int)),
       ("should_compact", JsonVal.bool a.should_compact),
       ("auto_compact_enabled", JsonVal.bool a.auto_compact),
       ("compact_threshold", JsonVal.str (formatPercent0 a.compact_threshold)),
       ("compaction_count", JsonVal.int (a.compaction_count : Int))]
    error_message := none }

/- ### The nudge decision rules as the spec words them (§4.4), to be compared
with the embedded `after_tool_execution`. -/

/-- The spec's decision rules, first applicable rule wins: disabled; limit
reached (`max_nudges > 0` and `nudge_count >= max_nudges`); tool not in
`target_tools`; call failed; otherwise increment the counter and emit the
one system message. -/
def nudgeDecisionSpecRules (s : PlaybookNudgeState) (ctx : ToolExecutionContext) :
    MiddlewareResult × PlaybookNudgeState :=
  if s.enabled = false then ({ messages_to_add := [] }, s)
  else if 0 < s.max_nudges ∧ (s.nudge_count : Int) ≥ s.max_nudges then
    ({ messages_to_add := [] }, s)
  else if ctx.tool_name ∉ s.target_tools then ({ messages_to_add := [] }, s)
  else if ctx.error = true then ({ messages_to_add := [] }, s)
  else ({ messages_to_add := [PlaybookNudgeMiddleware.nudgeMessage] },
        { s with nudge_count := s.nudge_count + 1 })

/- ### Concrete fixtures for scenarios and witnesses -/

/-- A successful `run_command` execution. -/
def ctxRun : ToolExecutionContext :=
  { tool_name := "run_command"
    tool_args := [("command", JsonVal.str "ls -la")]
    result := [("output", JsonVal.str "ok")]
    error := false
    tool_call_id := "call_1" }

/-- A middleware that always raises, to exercise the chain's behaviour on a
member fault; its state is trivial and it exposes no reset. -/
def faultySpec : MiddlewareSpec Unit :=
  { name := "faulty"
    enabled := fun _ => true
    after_tool_execution := fun _ _ => Except.error "middleware failure"
    reset := none }

/-- An instance of the always-raising middleware. -/
def faultyInst : MiddlewareInst :=
  ⟨Unit, faultySpec, ()⟩

/- ### Theorems -/

/-- C1: `PlaybookNudgeMiddleware.after_tool_execution` applies the spec's
decision rules in order, first applicable rule wins — a no-message rule
returns the empty result and leaves the state (so `nudge_count`) unchanged,
and the otherwise-rule increments `nudge_count` by one and emits the one
system message with the fixed text; `max_nudges = 0` never blocks a nudge;
and under `max_nudges = 2` three consecutive successful target-tool calls
nudge exactly on the first two. -/
theorem C1_nudge_decision_rules :
    (∀ (s : PlaybookNudgeState) (ctx : ToolExecutionContext),
       PlaybookNudgeMiddleware.after_tool_execution s ctx = nudgeDecisionSpecRules s ctx) ∧
    (∀ (s : PlaybookNudgeState) (ctx : ToolExecutionContext),
       s.max_nudges = 0 → s.enabled = true → ctx.tool_name ∈ s.target_tools →
       ctx.error = false →
       PlaybookNudgeMiddleware.after_tool_execution s ctx =
         ({ messages_to_add := [PlaybookNudgeMiddleware.nudgeMessage] },
          { s with nudge_count := s.nudge_count + 1 })) ∧
    ((PlaybookNudgeMiddleware.after_tool_execution
        (PlaybookNudgeMiddleware.init true 2 none) ctxRun).1.messages_to_add.length = 1 ∧
     (PlaybookNudgeMiddleware.after_tool_execution
        (PlaybookNudgeMiddleware.after_tool_execution
          (PlaybookNudgeMiddleware.init true 2 none) ctxRun).2
        ctxRun).1.messages_to_add.length = 1 ∧
     (PlaybookNudgeMiddleware.after_tool_execution
        (PlaybookNudgeMiddleware.after_tool_execution
          (PlaybookNudgeMiddleware.after_tool_execution
            (PlaybookNudgeMiddleware.init true 2 none) ctxRun).2
          ctxRun).2
        ctxRun).1.messages_to_add = []) := by
  refine ⟨?_, ?_, by decide⟩
  · intro s ctx
    unfold PlaybookNudgeMiddleware.after_tool_execution nudgeDecisionSpecRules
    have hmem : (s.target_tools.contains ctx.tool_name = false) ↔
        ctx.tool_name ∉ s.target_tools := by
      simp [List.contains]
    by_cases h1 : s.enabled = false
    · simp [h1]
    · by_cases h2 : 0 < s.max_nudges ∧ (s.nudge_count : Int) ≥ s.max_nudges
      · simp [h1, h2]
      · by_cases h3 : ctx.tool_name ∈ s.target_tools
        · have h3' : ¬ (s.target_tools.contains ctx.tool_name = false) := by
            simp [hmem, h3]
          simp [h1, h2, h3, h3']
        · have h3' : s.target_tools.contains ctx.tool_name = false := hmem.mpr h3
          simp [h1, h2, h3, h3']
  · intro s ctx hmax hen hmem herr
    unfold PlaybookNudgeMiddleware.after_tool_execution
    have h1 : ¬ (s.enabled = false) := by simp [hen]
    have h2 : ¬ (0 < s.max_nudges ∧ (s.nudge_count : Int) ≥ s.max_nudges) := by
      simp [hmax]
    have h3 : ¬ (s.target_tools.contains ctx.tool_name = false) := by
      simp [List.contains, hmem]
    simp [h1, h2, h3, herr, hmem]

/-- C1 witness: concrete instantiations discharging each hypothesis — the
rules at a fresh default state on a successful `run_command`, and the
`max_nudges = 0` conjunct at an unlimited state. -/
theorem C1_nudge_decision_rules_witness :
    PlaybookNudgeMiddleware.after_tool_execution
        (PlaybookNudgeMiddleware.init true 3 none) ctxRun =
      nudgeDecisionSpecRules (PlaybookNudgeMiddleware.init true 3 none) ctxRun ∧
    PlaybookNudgeMiddleware.after_tool_execution
        (PlaybookNudgeMiddleware.init true 0 none) ctxRun =
      ({ messages_to_add := [PlaybookNudgeMiddleware.nudgeMessage] },
       { PlaybookNudgeMiddleware.init true 0 none with nudge_count := 1 }) :=
  ⟨C1_nudge_decision_rules.1 (PlaybookNudgeMiddleware.init true 3 none) ctxRun,
   C1_nudge_decision_rules.2.1 (PlaybookNudgeMiddleware.init true 0 none) ctxRun
     (by decide) (by decide) (by decide) (by decide)⟩

/-- C2: when every enabled member returns normally, the chain invokes each
enabled member exactly once, in registration order — each member ends in the
state one invocation produces, disabled members stay put — and the returned
messages are the concatenation of every invoked member's `messages_to_add`,
preserving per-member order and dispatch order.  No member's invocation or
contribution depends on another member's output. -/
theorem C2_chain_dispatch_concatenates :
    ∀ (mws : List MiddlewareInst) (ctx : ToolExecutionContext),
      (∀ m ∈ mws, m.enabledNow = true → (m.runAfter ctx).isOk = true) →
      MiddlewareChain.process_tool_execution mws ctx =
        (Except.ok (mws.map (fun m => m.msgsOf ctx)).flatten,
         mws.map (fun m => m.stepOf ctx)) := by
  intro mws ctx
  induction mws with
  | nil => intro _; rfl
  | cons m rest ih =>
    intro h
    have hrest := ih (fun p hp => h p (List.mem_cons_of_mem m hp))
    have hm := h m (List.mem_cons_self m rest)
    unfold MiddlewareChain.process_tool_execution
    by_cases he : m.enabledNow
    · cases hra : m.runAfter ctx with
      | error e =>
        exfalso
        have := hm he
        rw [hra] at this
        simp [Except.isOk, Except.toBool] at this
      | ok p =>
        obtain ⟨msgs, m1⟩ := p
        simp [he, hra, hrest, MiddlewareInst.msgsOf, MiddlewareInst.stepOf]
    · simp [he, hrest, MiddlewareInst.msgsOf, MiddlewareInst.stepOf]

/-- C2 witness: a two-member chain — a rate-limited nudge middleware and a
disabled one — dispatched on a successful `run_command`. -/
theorem C2_chain_dispatch_concatenates_witness :
    MiddlewareChain.process_tool_execution
        [PlaybookNudgeMiddleware.inst (PlaybookNudgeMiddleware.init true 3 none),
         PlaybookNudgeMiddleware.inst (PlaybookNudgeMiddleware.init false 3 none)]
        ctxRun =
      (Except.ok [PlaybookNudgeMiddleware.nudgeMessage],
       [PlaybookNudgeMiddleware.inst
          { PlaybookNudgeMiddleware.init true 3 none with nudge_count := 1 },
        PlaybookNudgeMiddleware.inst (PlaybookNudgeMiddleware.init false 3 none)]) := by
  rw [C2_chain_dispatch_concatenates
        [PlaybookNudgeMiddleware.inst (PlaybookNudgeMiddleware.init true 3 none),
         PlaybookNudgeMiddleware.inst (PlaybookNudgeMiddleware.init false 3 none)]
        ctxRun ?_]
  · rfl
  · intro m hm
    simp only [List.mem_cons, List.not_mem_nil, or_false] at hm
    rcases hm with h | h
    · subst h; intro _; rfl
    · subst h; intro hen; exact absurd hen (by decide)

/-- C3 counterexample: with a chain of a raising middleware followed by an
enabled nudge middleware, on a successful `run_command` the dispatch returns
the exception — the nudge middleware is never invoked (its `nudge_count`
stays 0) and its message is not returned, contradicting the claim that the
faulting member is skipped and the others still contribute. -/
theorem C3_fault_aborts_chain_counterexample :
    MiddlewareChain.process_tool_execution
        [faultyInst, PlaybookNudgeMiddleware.inst (PlaybookNudgeMiddleware.init true 3 none)]
        ctxRun =
      (Except.error "middleware failure",
       [faultyInst, PlaybookNudgeMiddleware.inst (PlaybookNudgeMiddleware.init true 3 none)]) ∧
    (MiddlewareChain.process_tool_execution
        [faultyInst, PlaybookNudgeMiddleware.inst (PlaybookNudgeMiddleware.init true 3 none)]
        ctxRun).1 ≠ Except.ok [PlaybookNudgeMiddleware.nudgeMessage] :=
  ⟨rfl, fun h => Except.noConfusion h⟩

/-- C3 amended: the source has no per-member fault isolation — when an
enabled member raises (all enabled members before it returning normally),
`process_tool_execution` propagates that exception: no messages are
returned, and every member after the faulting one is left untouched,
never invoked. -/
theorem C3_amended_fault_propagates :
    ∀ (pre : List MiddlewareInst) (m : MiddlewareInst) (post : List MiddlewareInst)
      (ctx : ToolExecutionContext) (e : String),
      (∀ p ∈ pre, p.enabledNow = true → (p.runAfter ctx).isOk = true) →
      m.enabledNow = true → m.runAfter ctx = Except.error e →
      MiddlewareChain.process_tool_execution (pre ++ m :: post) ctx =
        (Except.error e, pre.map (fun p => p.stepOf ctx) ++ m :: post) := by
  intro pre m post ctx e
  induction pre with
  | nil =>
    intro _ he hra
    unfold MiddlewareChain.process_tool_execution
    simp [he, hra]
  | cons p pre1 ih =>
    intro h he hra
    have hrec := ih (fun q hq => h q (List.mem_cons_of_mem p hq)) he hra
    have hp := h p (List.mem_cons_self p pre1)
    show MiddlewareChain.process_tool_execution (p :: (pre1 ++ m :: post)) ctx = _
    unfold MiddlewareChain.process_tool_execution
    by_cases hpe : p.enabledNow
    · cases hpra : p.runAfter ctx with
      | error e1 =>
        exfalso
        have := hp hpe
        rw [hpra] at this
        simp [Except.isOk, Except.toBool] at this
      | ok q =>
        obtain ⟨msgs, p1⟩ := q
        simp [hpe, hpra, hrec, MiddlewareInst.stepOf]
    · simp [hpe, hrec, MiddlewareInst.stepOf]

/-- C3 amended witness: the raising middleware at the head of the concrete
two-member chain of the counterexample. -/
theorem C3_amended_fault_propagates_witness :
    MiddlewareChain.process_tool_execution
        [faultyInst, PlaybookNudgeMiddleware.inst (PlaybookNudgeMiddleware.init true 3 none)]
        ctxRun =
      (Except.error "middleware failure",
       [faultyInst, PlaybookNudgeMiddleware.inst (PlaybookNudgeMiddleware.init true 3 none)]) :=
  C3_amended_fault_propagates [] faultyInst
    [PlaybookNudgeMiddleware.inst (PlaybookNudgeMiddleware.init true 3 none)]
    ctxRun "middleware failure" (by intro p hp; cases hp) rfl rfl

/-- One unfolding of the dispatch loop at a cons cell. -/
theorem process_tool_execution_cons (m : MiddlewareInst) (rest : List MiddlewareInst)
    (ctx : ToolExecutionContext) :
    MiddlewareChain.process_tool_execution (m :: rest) ctx =
      if m.enabledNow then
        match m.runAfter ctx with
        | Except.error e => (Except.error e, m :: rest)
        | Except.ok (msgs, m1) =>
          match MiddlewareChain.process_tool_execution rest ctx with
          | (Except.error e, rest1) => (Except.error e, m1 :: rest1)
          | (Except.ok more, rest1) => (Except.ok (msgs ++ more), m1 :: rest1)
      else
        ((MiddlewareChain.process_tool_execution rest ctx).1,
         m :: (MiddlewareChain.process_tool_execution rest ctx).2) :=
  rfl

/-- The dispatch loop skips over a disabled head. -/
theorem process_tool_execution_cons_disabled (m : MiddlewareInst) (rest : List MiddlewareInst)
    (ctx : ToolExecutionContext) (h : m.enabledNow = false) :
    MiddlewareChain.process_tool_execution (m :: rest) ctx =
      ((MiddlewareChain.process_tool_execution rest ctx).1,
       m :: (MiddlewareChain.process_tool_execution rest ctx).2) := by
  rw [process_tool_execution_cons]
  simp [h]

/-- The dispatch loop stops at an enabled head that raises. -/
theorem process_tool_execution_cons_error (m : MiddlewareInst) (rest : List MiddlewareInst)
    (ctx : ToolExecutionContext) (e : String) (h : m.enabledNow = true)
    (hra : m.runAfter ctx = Except.error e) :
    MiddlewareChain.process_tool_execution (m :: rest) ctx = (Except.error e, m :: rest) := by
  rw [process_tool_execution_cons]
  simp [h, hra]

/-- The dispatch loop runs an enabled head that returns normally and goes on. -/
theorem process_tool_execution_cons_ok (m m1 : MiddlewareInst) (rest : List MiddlewareInst)
    (ctx : ToolExecutionContext) (msgs : List Msg) (h : m.enabledNow = true)
    (hra : m.runAfter ctx = Except.ok (msgs, m1)) :
    MiddlewareChain.process_tool_execution (m :: rest) ctx =
      (match MiddlewareChain.process_tool_execution rest ctx with
       | (Except.error e, rest1) => (Except.error e, m1 :: rest1)
       | (Except.ok more, rest1) => (Except.ok (msgs ++ more), m1 :: rest1)) := by
  rw [process_tool_execution_cons]
  simp [h, hra]

/-- C4: a member whose `enabled` property is false is skipped entirely by
the dispatch: the outcome (messages or exception) is exactly that of the
chain with the member removed, and the member reappears unchanged at its
position in the final member list — its `after_tool_execution` is never
invoked and its internal state is untouched. -/
theorem C4_disabled_member_skipped :
    ∀ (pre post : List MiddlewareInst) (m : MiddlewareInst) (ctx : ToolExecutionContext),
      m.enabledNow = false →
      MiddlewareChain.process_tool_execution (pre ++ m :: post) ctx =
        ((MiddlewareChain.process_tool_execution (pre ++ post) ctx).1,
         (MiddlewareChain.process_tool_execution (pre ++ post) ctx).2.take pre.length ++
           m :: (MiddlewareChain.process_tool_execution (pre ++ post) ctx).2.drop pre.length) := by
  intro pre post m ctx hdis
  induction pre with
  | nil =>
    show MiddlewareChain.process_tool_execution (m :: post) ctx = _
    rw [process_tool_execution_cons_disabled m post ctx hdis]
    simp
  | cons p pre1 ih =>
    show MiddlewareChain.process_tool_execution (p :: (pre1 ++ m :: post)) ctx = _
    conv_rhs => rw [List.cons_append]
    by_cases hpe : p.enabledNow
    · cases hpra : p.runAfter ctx with
      | error e1 =>
        rw [process_tool_execution_cons_error p _ ctx e1 hpe hpra,
            process_tool_execution_cons_error p _ ctx e1 hpe hpra]
        simp [List.take_succ_cons, List.drop_succ_cons, List.take_left, List.drop_left]
      | ok q =>
        obtain ⟨msgs, p1⟩ := q
        rw [process_tool_execution_cons_ok p p1 _ ctx msgs hpe hpra,
            process_tool_execution_cons_ok p p1 _ ctx msgs hpe hpra, ih]
        cases hR : MiddlewareChain.process_tool_execution (pre1 ++ post) ctx with
        | mk r1 sts =>
          cases r1 with
          | error e1 => simp
          | ok more => simp
    · rw [process_tool_execution_cons_disabled p _ ctx (by simpa using hpe),
          process_tool_execution_cons_disabled p _ ctx (by simpa using hpe), ih]
      simp

/-- C4 witness: a disabled nudge middleware between two enabled ones. -/
theorem C4_disabled_member_skipped_witness :
    MiddlewareChain.process_tool_execution
        [PlaybookNudgeMiddleware.inst (PlaybookNudgeMiddleware.init true 3 none),
         PlaybookNudgeMiddleware.inst (PlaybookNudgeMiddleware.init false 3 none),
         PlaybookNudgeMiddleware.inst (PlaybookNudgeMiddleware.init true 3 none)]
        ctxRun =
      ((MiddlewareChain.process_tool_execution
          [PlaybookNudgeMiddleware.inst (PlaybookNudgeMiddleware.init true 3 none),
           PlaybookNudgeMiddleware.inst (PlaybookNudgeMiddleware.init true 3 none)]
          ctxRun).1,
       (MiddlewareChain.process_tool_execution
          [PlaybookNudgeMiddleware.inst (PlaybookNudgeMiddleware.init true 3 none),
           PlaybookNudgeMiddleware.inst (PlaybookNudgeMiddleware.init true 3 none)]
          ctxRun).2.take 1 ++
         PlaybookNudgeMiddleware.inst (PlaybookNudgeMiddleware.init false 3 none) ::
           (MiddlewareChain.process_tool_execution
              [PlaybookNudgeMiddleware.inst (PlaybookNudgeMiddleware.init true 3 none),
               PlaybookNudgeMiddleware.inst (PlaybookNudgeMiddleware.init true 3 none)]
              ctxRun).2.drop 1) :=
  C4_disabled_member_skipped
    [PlaybookNudgeMiddleware.inst (PlaybookNudgeMiddleware.init true 3 none)]
    [PlaybookNudgeMiddleware.inst (PlaybookNudgeMiddleware.init true 3 none)]
    (PlaybookNudgeMiddleware.inst (PlaybookNudgeMiddleware.init false 3 none))
    ctxRun rfl

/-- C5: `PlaybookNudgeMiddleware.reset` zeroes `nudge_count` and changes
nothing else (`enabled`, `max_nudges`, `target_tools` are untouched), so the
next qualifying call nudges again; `MiddlewareChain.reset` resets each
member pointwise — it applies the member's reset operation when the member
exposes one and returns members without one unchanged, and being a total
function it never fails on them. -/
theorem C5_reset_semantics :
    (∀ s : PlaybookNudgeState,
       PlaybookNudgeMiddleware.reset s =
         { enabled := s.enabled, max_nudges := s.max_nudges,
           target_tools := s.target_tools, nudge_count := 0 }) ∧
    (∀ (s : PlaybookNudgeState) (ctx : ToolExecutionContext),
       s.enabled = true → s.target_tools.contains ctx.tool_name = true →
       ctx.error = false →
       (PlaybookNudgeMiddleware.after_tool_execution
           (PlaybookNudgeMiddleware.reset s) ctx).1 =
         { messages_to_add := [PlaybookNudgeMiddleware.nudgeMessage] }) ∧
    (∀ mws : List MiddlewareInst,
       MiddlewareChain.reset mws = mws.map MiddlewareInst.resetOne) ∧
    (∀ (m : MiddlewareInst) (f : m.σ → m.σ),
       m.spec.reset = some f → m.resetOne = ⟨m.σ, m.spec, f m.state⟩) ∧
    (∀ m : MiddlewareInst, m.spec.reset = none → m.resetOne = m) := by
  refine ⟨fun s => rfl, ?_, ?_, ?_, ?_⟩
  · intro s ctx hen htool herr
    unfold PlaybookNudgeMiddleware.after_tool_execution PlaybookNudgeMiddleware.reset
    have h2 : ¬ (0 < s.max_nudges ∧ s.max_nudges ≤ 0) := by omega
    have hmem : ctx.tool_name ∈ s.target_tools := by
      simpa [List.contains] using htool
    simp [hen, htool, herr, h2, hmem]
  · intro mws
    induction mws with
    | nil => rfl
    | cons m rest ih =>
      show MiddlewareChain.reset (m :: rest) = _
      unfold MiddlewareChain.reset
      rw [ih]
      rfl
  · intro m f hf
    unfold MiddlewareInst.resetOne
    rw [hf]
  · intro m hf
    unfold MiddlewareInst.resetOne
    rw [hf]

/-- C5 witness: an exhausted nudge state nudges again right after reset; the
nudge member's reset is applied, the reset-less faulty member is unchanged. -/
theorem C5_reset_semantics_witness :
    (PlaybookNudgeMiddleware.after_tool_execution
        (PlaybookNudgeMiddleware.reset
          { enabled := true, max_nudges := 1,
            target_tools := ["run_command"], nudge_count := 1 })
        ctxRun).1 =
      { messages_to_add := [PlaybookNudgeMiddleware.nudgeMessage] } ∧
    (PlaybookNudgeMiddleware.inst (PlaybookNudgeMiddleware.init true 1 none)).resetOne =
      ⟨PlaybookNudgeState, PlaybookNudgeMiddleware.spec,
       PlaybookNudgeMiddleware.reset (PlaybookNudgeMiddleware.init true 1 none)⟩ ∧
    faultyInst.resetOne = faultyInst :=
  ⟨C5_reset_semantics.2.1
      { enabled := true, max_nudges := 1, target_tools := ["run_command"], nudge_count := 1 }
      ctxRun rfl (by decide) rfl,
   C5_reset_semantics.2.2.2.1
      (PlaybookNudgeMiddleware.inst (PlaybookNudgeMiddleware.init true 1 none))
      PlaybookNudgeMiddleware.reset rfl,
   C5_reset_semantics.2.2.2.2 faultyInst rfl⟩

/-- C6: on a successful compaction `CompactTool.execute` returns the
successful result with tokens before and after, their difference as
`tokens_saved`, both usage ratios formatted as percentages, the context
limit and the summary preview; a raised exception yields the failed result
carrying a readable description instead of propagating; and the preview is
the first 200 characters followed by "..." exactly when the summary is
longer than 200 characters, the whole summary otherwise. -/
theorem C6_compact_tool_result :
    (∀ (old mx : Nat) (oldU : ℚ) (fresh mx2 : Nat) (freshU : ℚ) (summary : String),
       CompactTool.execute (old, mx, oldU) (Except.ok summary) (fresh, mx2, freshU) =
         { success := true
           data := [("message", JsonVal.str "Conversation compacted successfully"),
                    ("tokens_before", JsonVal.int (old : Int)),
                    ("tokens_after", JsonVal.int (fresh : Int)),
                    ("tokens_saved", JsonVal.int ((old : Int) - (fresh : Int))),
                    ("usage_before", JsonVal.str (formatPercent1 oldU)),
                    ("usage_after", JsonVal.str (formatPercent1 freshU)),
                    ("context_limit", JsonVal.int (mx : Int)),
                    ("summary_preview", JsonVal.str (summaryPreview summary))]
           error_message := none }) ∧
    (∀ (usageBefore usageAfter : Nat × Nat × ℚ) (e : String),
       CompactTool.execute usageBefore (Except.error e) usageAfter =
         { success := false, data := [],
           error_message := some ("Failed to compact conversation: " ++ e) }) ∧
    (∀ s : String, s.length > 200 → summaryPreview s = s.take 200 ++ "...") ∧
    (∀ s : String, s.length ≤ 200 → summaryPreview s = s) := by
  refine ⟨fun _ _ _ _ _ _ _ => rfl, fun _ _ _ => rfl, ?_, ?_⟩
  · intro s h
    unfold summaryPreview
    simp [h]
  · intro s h
    unfold summaryPreview
    have : ¬ s.length > 200 := by omega
    simp [this]

/-- C6 witness: the preview of a 201-character summary is truncated with an
ellipsis, a short summary is returned whole. -/
theorem C6_compact_tool_result_witness :
    summaryPreview (String.mk (List.replicate 201 'x')) =
      (String.mk (List.replicate 201 'x')).take 200 ++ "..." ∧
    summaryPreview "done" = "done" :=
  ⟨C6_compact_tool_result.2.2.1 (String.mk (List.replicate 201 'x'))
      (by decide),
   C6_compact_tool_result.2.2.2 "done" (by decide)⟩

/-- C7: `ContextStatusTool.execute` always succeeds with no error message
and returns exactly the agent's current token count, context limit, usage
ratio as a percentage, transcript length, `should_compact` recommendation,
auto-compaction flag, configured threshold and compaction count, as obtained
from `get_token_usage()` and `should_compact()`; it only reads the agent
state (it is a function of `a` returning a result, so `a` is unchanged). -/
theorem C7_context_status_fields :
    ∀ a : AgentLoop,
      (ContextStatusTool.execute a).success = true ∧
      (ContextStatusTool.execute a).error_message = none ∧
      (ContextStatusTool.execute a).data =
        [("current_tokens", JsonVal.int ((a.get_token_usage.1 : Nat) : Int)),
         ("context_limit", JsonVal.int ((a.get_token_usage.2.1 : Nat) : Int)),
         ("usage_percent", JsonVal.str (formatPercent1 a.get_token_usage.2.2)),
         ("messages_count", JsonVal.int (a.messages.length : Int)),
         ("should_compact", JsonVal.bool a.should_compact),
         ("auto_compact_enabled", JsonVal.bool a.auto_compact),
         ("compact_threshold", JsonVal.str (formatPercent0 a.compact_threshold)),
         ("compaction_count", JsonVal.int (a.compaction_count : Int))] :=
  fun _ => ⟨rfl, rfl, rfl⟩

/-- C8: `remove` pops the first member whose name matches and returns true
exactly when one exists; with no match it returns false and the membership
is unchanged; `add` followed by `remove` of the added member's name restores
the original length; and with duplicate names both `remove` and `get`
resolve to the first match in registration order. -/
theorem C8_chain_management :
    (∀ (mws : List MiddlewareInst) (nm : String),
       (MiddlewareChain.remove mws nm).1 = mws.any (fun m => m.name == nm)) ∧
    (∀ (mws : List MiddlewareInst) (nm : String),
       (∀ p ∈ mws, p.name ≠ nm) → MiddlewareChain.remove mws nm = (false, mws)) ∧
    (∀ (mws : List MiddlewareInst) (m : MiddlewareInst),
       (MiddlewareChain.remove (MiddlewareChain.add mws m) m.name).2.length = mws.length) ∧
    (∀ (pre post : List MiddlewareInst) (m : MiddlewareInst) (nm : String),
       (∀ p ∈ pre, p.name ≠ nm) → m.name = nm →
       MiddlewareChain.remove (pre ++ m :: post) nm = (true, pre ++ post) ∧
       MiddlewareChain.get (pre ++ m :: post) nm = some m) := by
  refine ⟨?_, ?_, ?_, ?_⟩
  · intro mws nm
    induction mws with
    | nil => rfl
    | cons p rest ih =>
      show (MiddlewareChain.remove (p :: rest) nm).1 = _
      unfold MiddlewareChain.remove
      by_cases hp : p.name = nm
      · simp [hp]
      · simp [hp, ih]
  · intro mws nm h
    induction mws with
    | nil => rfl
    | cons p rest ih =>
      have hp : ¬ p.name = nm := h p (List.mem_cons_self p rest)
      have hrest := ih (fun q hq => h q (List.mem_cons_of_mem p hq))
      show MiddlewareChain.remove (p :: rest) nm = _
      unfold MiddlewareChain.remove
      simp [hp, hrest]
  · intro mws m
    induction mws with
    | nil =>
      show (MiddlewareChain.remove ([] ++ [m]) m.name).2.length = 0
      unfold MiddlewareChain.remove
      simp
    | cons p rest ih =>
      show (MiddlewareChain.remove (p :: (rest ++ [m])) m.name).2.length = rest.length + 1
      unfold MiddlewareChain.remove
      by_cases hp : p.name = m.name
      · simp [hp]
      · simpa [hp] using ih
  · intro pre post m nm hpre hm
    induction pre with
    | nil =>
      constructor
      · show MiddlewareChain.remove (m :: post) nm = _
        unfold MiddlewareChain.remove
        simp [hm]
      · show MiddlewareChain.get (m :: post) nm = _
        unfold MiddlewareChain.get
        simp [hm]
    | cons p pre1 ih =>
      have hp : ¬ p.name = nm := hpre p (List.mem_cons_self p pre1)
      have hrest := ih (fun q hq => hpre q (List.mem_cons_of_mem p hq))
      constructor
      · show MiddlewareChain.remove (p :: (pre1 ++ m :: post)) nm = _
        unfold MiddlewareChain.remove
        simp [hp, hrest.1]
      · show MiddlewareChain.get (p :: (pre1 ++ m :: post)) nm = _
        unfold MiddlewareChain.get
        simp [hp, hrest.2]

/-- C8 witness: removing from a two-member chain with a decoy first member,
and first-match resolution with a duplicate name behind it. -/
theorem C8_chain_management_witness :
    MiddlewareChain.remove
        [faultyInst,
         PlaybookNudgeMiddleware.inst (PlaybookNudgeMiddleware.init true 3 none),
         PlaybookNudgeMiddleware.inst (PlaybookNudgeMiddleware.init false 7 none)]
        "playbook_nudge" =
      (true,
       [faultyInst,
        PlaybookNudgeMiddleware.inst (PlaybookNudgeMiddleware.init false 7 none)]) ∧
    MiddlewareChain.get
        [faultyInst,
         PlaybookNudgeMiddleware.inst (PlaybookNudgeMiddleware.init true 3 none),
         PlaybookNudgeMiddleware.inst (PlaybookNudgeMiddleware.init false 7 none)]
        "playbook_nudge" =
      some (PlaybookNudgeMiddleware.inst (PlaybookNudgeMiddleware.init true 3 none)) :=
  C8_chain_management.2.2.2 [faultyInst]
    [PlaybookNudgeMiddleware.inst (PlaybookNudgeMiddleware.init false 7 none)]
    (PlaybookNudgeMiddleware.inst (PlaybookNudgeMiddleware.init true 3 none))
    "playbook_nudge"
    (by
      intro p hp
      simp only [List.mem_cons, List.not_mem_nil, or_false] at hp
      subst hp
      decide)
    rfl

/-- C9: `usage_ratio` is `current_tokens / max_tokens`, `get_token_usage`
returns the triple, and `should_compact()` is true iff auto-compaction is
enabled and the usage ratio has reached the threshold; `should_compact` is
a function of the state into `Bool` only, hence a side-effect-free query. -/
theorem C9_should_compact_iff :
    ∀ a : AgentLoop,
      a.usage_ratio = (a.current_tokens : ℚ) / (a.max_tokens : ℚ) ∧
      a.get_token_usage = (a.current_tokens, a.max_tokens, a.usage_ratio) ∧
      (a.should_compact = true ↔
        a.auto_compact = true ∧ a.compact_threshold ≤ a.usage_ratio) := by
  intro a
  refine ⟨rfl, rfl, ?_⟩
  unfold AgentLoop.should_compact
  simp

/-- C10: constructing the nudge middleware with an explicitly empty
`target_tools` list falls back to the default `["run_command"]` — exactly
as passing no list — so a successful `run_command` still nudges; only a
non-empty list is kept and restricts the triggering tools. -/
theorem C10_empty_target_tools_defaults :
    (PlaybookNudgeMiddleware.init true 3 (some [])).target_tools = ["run_command"] ∧
    (∀ (e : Bool) (mx : Int),
       (PlaybookNudgeMiddleware.init e mx (some [])).target_tools =
         (PlaybookNudgeMiddleware.init e mx none).target_tools) ∧
    (PlaybookNudgeMiddleware.after_tool_execution
        (PlaybookNudgeMiddleware.init true 3 (some [])) ctxRun).1.messages_to_add =
      [PlaybookNudgeMiddleware.nudgeMessage] ∧
    (∀ (e : Bool) (mx : Int) (t : String) (ts : List String),
       (PlaybookNudgeMiddleware.init e mx (some (t :: ts))).target_tools = t :: ts) :=
  ⟨rfl, fun _ _ => rfl, by decide, fun _ _ _ _ => rfl⟩
